import Mathlib

/-!
Shallow embedding of the NubDB Rust client (`src/clients/rust/nubdb.rs`).

The client owns one duplex TCP stream.  We model the connection as:
  * `written` — the byte lines written to the server so far (each entry is
    one full command line including the `"\n"` that `writeln!` appends);
  * `input`   — the server-to-client byte stream still to be read, as a
    list of read events: `ReadStep.line s` means the next `read_line`
    succeeds and fills the buffer with `s` (terminator included when the
    server sent one); `ReadStep.fail e` means the next read fails with the
    I/O error `e`; an empty list means end of stream, where Rust's
    `BufRead::read_line` returns `Ok(0)` leaving the buffer empty;
  * `wfail`   — when `some e`, the next `writeln!`/`flush` fails with `e`.

Errors are `std::io::Error`, modelled by its `kind`; decode failures are
built with `std::io::Error::new(ErrorKind::InvalidData, e)` in the source.
Rust library functions used by the client (`str::trim`, `str::trim_matches`,
`str::split_whitespace`, `str::parse::<i64>/<usize>`) are embedded below;
`trim` is restricted to the ASCII whitespace relevant to this protocol.
-/

/-- Kind of a `std::io::Error`; `invalidData` is `ErrorKind::InvalidData`,
the kind the client uses for decode failures. The remaining constructors
stand for the kinds transport failures can carry. -/
inductive ErrorKind
  | invalidData
  | brokenPipe
  | connectionReset
  | unexpectedEof
  | timedOut
  | otherKind
  deriving DecidableEq, Repr

/-- Model of `std::io::Error`: only its kind is observable to the claims. -/
structure IOErr where
  kind : ErrorKind
  deriving DecidableEq, Repr

deriving instance DecidableEq for Except

/-- Rust `str::trim` (restricted to ASCII whitespace): remove leading and
trailing whitespace characters. -/
def rust_trim (s : String) : String :=
  String.mk (((s.data.dropWhile Char.isWhitespace).reverse.dropWhile Char.isWhitespace).reverse)

/-- Rust `str::trim_matches(c)` for a char pattern: repeatedly remove the
char `c` from both ends, i.e. strip every leading and trailing occurrence. -/
def trim_matches (c : Char) (s : String) : String :=
  String.mk (((s.data.dropWhile (fun x => x == c)).reverse.dropWhile (fun x => x == c)).reverse)

/-- Worker for Rust `str::split_whitespace`: scan the characters holding
the current token in `acc` (reversed); a whitespace character ends the
token, and empty tokens are never emitted. -/
def splitWSAux : List Char → List Char → List String
  | [], acc => if acc.isEmpty then [] else [String.mk acc.reverse]
  | c :: cs, acc =>
    if c.isWhitespace then
      if acc.isEmpty then splitWSAux cs []
      else String.mk acc.reverse :: splitWSAux cs []
    else splitWSAux cs (c :: acc)

/-- Rust `str::split_whitespace`, collected into a list as the source's
`response.split_whitespace().collect::<Vec<&str>>()` does: the maximal
runs of non-whitespace characters, in order. -/
def split_whitespace (s : String) : List String :=
  splitWSAux s.data []

/-- Decimal value of a digit list (the accumulator loop inside Rust's
integer `from_str`). -/
def digitsToNat (ds : List Char) : Nat :=
  ds.foldl (fun a c => a * 10 + (c.toNat - 48)) 0

/-- Rust `str::parse::<i64>`: optional `+`/`-` sign, then one or more ASCII
digits, value within the `i64` range; anything else is a parse error
(`none`). -/
def parse_i64 (s : String) : Option Int :=
  match s.data with
  | [] => none
  | c :: cs =>
    let signed := if c == '-' then (true, cs) else if c == '+' then (false, cs) else (false, c :: cs)
    match signed with
    | (neg, ds) =>
      if ds.isEmpty then none
      else if ds.all Char.isDigit then
        let n := digitsToNat ds
        if neg then
          if n ≤ 2 ^ 63 then some (-(n : Int)) else none
        else
          if n ≤ 2 ^ 63 - 1 then some (n : Int) else none
      else none

/-- Rust `str::parse::<usize>` (64-bit target): optional `+` sign, then one
or more ASCII digits, value below `2^64`; a `-` sign or anything else is a
parse error (`none`). -/
def parse_usize (s : String) : Option Nat :=
  match s.data with
  | [] => none
  | c :: cs =>
    let ds := if c == '+' then cs else c :: cs
    if ds.isEmpty then none
    else if ds.all Char.isDigit then
      let n := digitsToNat ds
      if n ≤ 2 ^ 64 - 1 then some n else none
    else none

/-- One read event on the reply stream: a successful `read_line` producing
`s`, or a failing read. End of stream is the exhausted list. -/
inductive ReadStep
  | line (s : String)
  | fail (e : IOErr)
  deriving DecidableEq, Repr

/-- The client state: the `NubDB` struct's `stream` and `reader`, modelled
by the log of command lines written and the reply stream still unread. -/
structure NubDB where
  written : List String
  input : List ReadStep
  wfail : Option IOErr
  deriving DecidableEq, Repr

namespace NubDB

/-- Method `NubDB::send_command`: write `cmd` plus a line terminator, flush, read
one line, and return it trimmed.  A write/flush failure or read failure is
propagated by `?`; at end of stream `read_line` succeeds reading nothing,
so the trimmed empty buffer is returned as `Ok`. -/
def send_command (db : NubDB) (cmd : String) : Except IOErr String × NubDB :=
  match db.wfail with
  | some e => (.error e, db)
  | none =>
    let db1 : NubDB := { db with written := db.written ++ [cmd ++ "\n"] }
    match db1.input with
    | [] => (.ok (rust_trim ""), db1)
    | .line s :: rest => (.ok (rust_trim s), { db1 with input := rest })
    | .fail e :: rest => (.error e, { db1 with input := rest })

/-- Method `NubDB::set`: send `SET key "value"` (with trailing ` ttl` when given)
and report whether the reply is `OK`. -/
def set (db : NubDB) (key value : String) (ttl : Option Nat) : Except IOErr Bool × NubDB :=
  let cmd := match ttl with
    | some t => "SET " ++ key ++ " \"" ++ value ++ "\" " ++ toString t
    | none => "SET " ++ key ++ " \"" ++ value ++ "\""
  match send_command db cmd with
  | (.ok response, db1) => (.ok (decide (response = "OK")), db1)
  | (.error e, db1) => (.error e, db1)

/-- Method `NubDB::get`: send `GET key`; `(nil)` decodes to `none`, any other reply
has its quotes stripped and is returned as a value. -/
def get (db : NubDB) (key : String) : Except IOErr (Option String) × NubDB :=
  match send_command db ("GET " ++ key) with
  | (.ok response, db1) =>
    if response = "(nil)" then (.ok none, db1)
    else (.ok (some (trim_matches '"' response)), db1)
  | (.error e, db1) => (.error e, db1)

/-- Method `NubDB::delete`: send `DELETE key`, true iff the reply is `OK`. -/
def delete (db : NubDB) (key : String) : Except IOErr Bool × NubDB :=
  match send_command db ("DELETE " ++ key) with
  | (.ok response, db1) => (.ok (decide (response = "OK")), db1)
  | (.error e, db1) => (.error e, db1)

/-- Method `NubDB::exists`: send `EXISTS key`, true iff the reply is `1`. -/
def «exists» (db : NubDB) (key : String) : Except IOErr Bool × NubDB :=
  match send_command db ("EXISTS " ++ key) with
  | (.ok response, db1) => (.ok (decide (response = "1")), db1)
  | (.error e, db1) => (.error e, db1)

/-- Method `NubDB::incr`: send `INCR key`, parse the reply as `i64`; a parse
failure becomes an I/O error with kind `InvalidData`. -/
def incr (db : NubDB) (key : String) : Except IOErr Int × NubDB :=
  match send_command db ("INCR " ++ key) with
  | (.ok response, db1) =>
    match parse_i64 response with
    | some n => (.ok n, db1)
    | none => (.error ⟨.invalidData⟩, db1)
  | (.error e, db1) => (.error e, db1)

/-- Method `NubDB::decr`: send `DECR key`, parse the reply as `i64`; a parse
failure becomes an I/O error with kind `InvalidData`. -/
def decr (db : NubDB) (key : String) : Except IOErr Int × NubDB :=
  match send_command db ("DECR " ++ key) with
  | (.ok response, db1) =>
    match parse_i64 response with
    | some n => (.ok n, db1)
    | none => (.error ⟨.invalidData⟩, db1)
  | (.error e, db1) => (.error e, db1)

/-- Method `NubDB::size`: send `SIZE`, split the reply on whitespace and parse the
first token as `usize`; an empty token list yields `0`. -/
def size (db : NubDB) : Except IOErr Nat × NubDB :=
  match send_command db "SIZE" with
  | (.ok response, db1) =>
    match (split_whitespace response).head? with
    | some num_str =>
      match parse_usize num_str with
      | some n => (.ok n, db1)
      | none => (.error ⟨.invalidData⟩, db1)
    | none => (.ok 0, db1)
  | (.error e, db1) => (.error e, db1)

/-- Method `NubDB::clear`: send `CLEAR`, true iff the reply is `OK`. -/
def clear (db : NubDB) : Except IOErr Bool × NubDB :=
  match send_command db "CLEAR" with
  | (.ok response, db1) => (.ok (decide (response = "OK")), db1)
  | (.error e, db1) => (.error e, db1)

/-- Method `NubDB::close`: send `QUIT`, discard the reply, return unit. -/
def close (db : NubDB) : Except IOErr Unit × NubDB :=
  match send_command db "QUIT" with
  | (.ok _, db1) => (.ok (), db1)
  | (.error e, db1) => (.error e, db1)

end NubDB

/-- One public operation of the client, for reasoning about call sequences. -/
inductive Op
  | set (key value : String) (ttl : Option Nat)
  | get (key : String)
  | delete (key : String)
  | existsOp (key : String)
  | incr (key : String)
  | decr (key : String)
  | size
  | clear
  | close
  deriving DecidableEq, Repr

/-- The untyped result of one operation, so a sequence of heterogeneous
calls can be collected in one list. -/
inductive OpResult
  | bool (b : Bool)
  | optStr (s : Option String)
  | int (n : Int)
  | nat (n : Nat)
  | unit
  deriving DecidableEq, Repr

/-- The command line each operation builds (without the terminator that
`writeln!` appends), exactly as the source's `format!` calls produce it. -/
def cmdOf : Op → String
  | .set key value (some t) => "SET " ++ key ++ " \"" ++ value ++ "\" " ++ toString t
  | .set key value none => "SET " ++ key ++ " \"" ++ value ++ "\""
  | .get key => "GET " ++ key
  | .delete key => "DELETE " ++ key
  | .existsOp key => "EXISTS " ++ key
  | .incr key => "INCR " ++ key
  | .decr key => "DECR " ++ key
  | .size => "SIZE"
  | .clear => "CLEAR"
  | .close => "QUIT"

/-- Dispatch one operation to the client method it denotes. -/
def runOp (op : Op) (db : NubDB) : Except IOErr OpResult × NubDB :=
  match op with
  | .set key value ttl =>
    ((NubDB.set db key value ttl).1.map OpResult.bool, (NubDB.set db key value ttl).2)
  | .get key =>
    ((NubDB.get db key).1.map OpResult.optStr, (NubDB.get db key).2)
  | .delete key =>
    ((NubDB.delete db key).1.map OpResult.bool, (NubDB.delete db key).2)
  | .existsOp key =>
    ((NubDB.exists db key).1.map OpResult.bool, (NubDB.exists db key).2)
  | .incr key =>
    ((NubDB.incr db key).1.map OpResult.int, (NubDB.incr db key).2)
  | .decr key =>
    ((NubDB.decr db key).1.map OpResult.int, (NubDB.decr db key).2)
  | .size =>
    ((NubDB.size db).1.map OpResult.nat, (NubDB.size db).2)
  | .clear =>
    ((NubDB.clear db).1.map OpResult.bool, (NubDB.clear db).2)
  | .close =>
    ((NubDB.close db).1.map (fun _ => OpResult.unit), (NubDB.close db).2)

/-- Run a sequence of operations on one client, collecting each call's
result in order. -/
def runOps : List Op → NubDB → List (Except IOErr OpResult) × NubDB
  | [], db => ([], db)
  | op :: ops, db =>
    ((runOp op db).1 :: (runOps ops (runOp op db).2).1, (runOps ops (runOp op db).2).2)


/-- Helper: `set` on a state whose next read yields the line `raw` returns
whether the trimmed reply is `OK` and appends its one command line. -/
theorem set_line (key value : String) (ttl : Option Nat) (raw : String) (w : List String)
    (rest : List ReadStep) :
    NubDB.set ⟨w, ReadStep.line raw :: rest, none⟩ key value ttl
      = (Except.ok (decide (rust_trim raw = "OK")),
         ⟨w ++ [cmdOf (Op.set key value ttl) ++ "\n"], rest, none⟩) := by
  cases ttl <;> rfl

/-- Helper: `get` on a state whose next read yields the line `raw`. -/
theorem get_line (key raw : String) (w : List String) (rest : List ReadStep) :
    NubDB.get ⟨w, ReadStep.line raw :: rest, none⟩ key
      = (Except.ok (if rust_trim raw = "(nil)" then none
                    else some (trim_matches '"' (rust_trim raw))),
         ⟨w ++ [cmdOf (Op.get key) ++ "\n"], rest, none⟩) := by
  simp only [NubDB.get, NubDB.send_command, cmdOf]
  by_cases h : rust_trim raw = "(nil)" <;> simp [h]

/-- Helper: `delete` on a state whose next read yields the line `raw`. -/
theorem delete_line (key raw : String) (w : List String) (rest : List ReadStep) :
    NubDB.delete ⟨w, ReadStep.line raw :: rest, none⟩ key
      = (Except.ok (decide (rust_trim raw = "OK")),
         ⟨w ++ [cmdOf (Op.delete key) ++ "\n"], rest, none⟩) := rfl

/-- Helper: `exists` on a state whose next read yields the line `raw`. -/
theorem exists_line (key raw : String) (w : List String) (rest : List ReadStep) :
    NubDB.exists ⟨w, ReadStep.line raw :: rest, none⟩ key
      = (Except.ok (decide (rust_trim raw = "1")),
         ⟨w ++ [cmdOf (Op.existsOp key) ++ "\n"], rest, none⟩) := rfl

/-- Helper: `incr` on a state whose next read yields the line `raw`. -/
theorem incr_line (key raw : String) (w : List String) (rest : List ReadStep) :
    NubDB.incr ⟨w, ReadStep.line raw :: rest, none⟩ key
      = ((match parse_i64 (rust_trim raw) with
          | some n => Except.ok n
          | none => Except.error ⟨ErrorKind.invalidData⟩),
         ⟨w ++ [cmdOf (Op.incr key) ++ "\n"], rest, none⟩) := by
  simp only [NubDB.incr, NubDB.send_command, cmdOf]
  cases h : parse_i64 (rust_trim raw) <;> simp [h]

/-- Helper: `decr` on a state whose next read yields the line `raw`. -/
theorem decr_line (key raw : String) (w : List String) (rest : List ReadStep) :
    NubDB.decr ⟨w, ReadStep.line raw :: rest, none⟩ key
      = ((match parse_i64 (rust_trim raw) with
          | some n => Except.ok n
          | none => Except.error ⟨ErrorKind.invalidData⟩),
         ⟨w ++ [cmdOf (Op.decr key) ++ "\n"], rest, none⟩) := by
  simp only [NubDB.decr, NubDB.send_command, cmdOf]
  cases h : parse_i64 (rust_trim raw) <;> simp [h]

/-- Helper: `size` on a state whose next read yields the line `raw`. -/
theorem size_line (raw : String) (w : List String) (rest : List ReadStep) :
    NubDB.size ⟨w, ReadStep.line raw :: rest, none⟩
      = ((match (split_whitespace (rust_trim raw)).head? with
          | some num_str =>
            match parse_usize num_str with
            | some n => Except.ok n
            | none => Except.error ⟨ErrorKind.invalidData⟩
          | none => Except.ok 0),
         ⟨w ++ [cmdOf Op.size ++ "\n"], rest, none⟩) := by
  simp only [NubDB.size, NubDB.send_command, cmdOf]
  cases h : (split_whitespace (rust_trim raw)).head? with
  | none => simp [h]
  | some num_str => cases h2 : parse_usize num_str <;> simp [h, h2]

/-- Helper: `clear` on a state whose next read yields the line `raw`. -/
theorem clear_line (raw : String) (w : List String) (rest : List ReadStep) :
    NubDB.clear ⟨w, ReadStep.line raw :: rest, none⟩
      = (Except.ok (decide (rust_trim raw = "OK")),
         ⟨w ++ [cmdOf Op.clear ++ "\n"], rest, none⟩) := rfl

/-- Helper: `close` on a state whose next read yields the line `raw`. -/
theorem close_line (raw : String) (w : List String) (rest : List ReadStep) :
    NubDB.close ⟨w, ReadStep.line raw :: rest, none⟩
      = (Except.ok (), ⟨w ++ [cmdOf Op.close ++ "\n"], rest, none⟩) := rfl

/-- The result one operation decodes from the single reply line `s`: the
call's outcome on a fresh client whose stream holds only that reply. -/
def decodeOn (op : Op) (s : String) : Except IOErr OpResult :=
  (runOp op ⟨[], [ReadStep.line s], none⟩).1

/-- Helper: every operation on a state whose next read yields the line `s`
appends exactly its command line, consumes exactly that read event, and
returns the result decoded from that reply alone. -/
theorem runOp_one_line (op : Op) (w : List String) (s : String) (rest : List ReadStep) :
    runOp op ⟨w, ReadStep.line s :: rest, none⟩
      = (decodeOn op s, ⟨w ++ [cmdOf op ++ "\n"], rest, none⟩) := by
  rw [decodeOn]
  cases op with
  | set key value ttl => simp [runOp, set_line]
  | get key => simp [runOp, get_line]
  | delete key => simp [runOp, delete_line]
  | existsOp key => simp [runOp, exists_line]
  | incr key => cases h : parse_i64 (rust_trim s) <;> simp [runOp, incr_line, h]
  | decr key => cases h : parse_i64 (rust_trim s) <;> simp [runOp, decr_line, h]
  | size =>
    cases h : (split_whitespace (rust_trim s)).head? with
    | none => simp [runOp, size_line, h]
    | some num_str => cases h2 : parse_usize num_str <;> simp [runOp, size_line, h, h2]
  | clear => simp [runOp, clear_line]
  | close => simp [runOp, close_line]

/-- C2: `get key` sends the command line `GET key`; it returns `none`
exactly when the trimmed reply equals `(nil)`, returns `some` of any other
trimmed reply with its surrounding double quotes stripped, and never
signals an error for an unexpected reply shape. -/
theorem get_decodes_reply (key raw : String) (w : List String) (rest : List ReadStep) :
    (NubDB.get ⟨w, ReadStep.line raw :: rest, none⟩ key).1
        = Except.ok (if rust_trim raw = "(nil)" then none
                     else some (trim_matches '"' (rust_trim raw)))
    ∧ (NubDB.get ⟨w, ReadStep.line raw :: rest, none⟩ key).2
        = ⟨w ++ ["GET " ++ key ++ "\n"], rest, none⟩ := by
  rw [get_line]
  exact ⟨rfl, rfl⟩

/-- C6: `set key value ttl` sends exactly the command line
`SET key "value"` (with a trailing ` ttl` when one is supplied), the value
interpolated verbatim between double quotes with no escaping, and returns
`Ok true` exactly when the trimmed reply equals `OK`, `Ok false` for any
other reply. -/
theorem set_encodes_command_and_decodes_ok (key value : String) (ttl : Option Nat)
    (raw : String) (w : List String) (rest : List ReadStep) :
    (NubDB.set ⟨w, ReadStep.line raw :: rest, none⟩ key value ttl).1
        = Except.ok (decide (rust_trim raw = "OK"))
    ∧ (NubDB.set ⟨w, ReadStep.line raw :: rest, none⟩ key value ttl).2
        = ⟨w ++ [(match ttl with
                  | some t => "SET " ++ key ++ " \"" ++ value ++ "\" " ++ toString t
                  | none => "SET " ++ key ++ " \"" ++ value ++ "\"") ++ "\n"],
           rest, none⟩
    ∧ (NubDB.set ⟨[], [ReadStep.line "OK\n"], none⟩ "k" "a\"b" none).2.written
        = ["SET k \"a\"b\"\n"]
    ∧ (NubDB.set ⟨[], [ReadStep.line "OK\n"], none⟩ "k" "v" none).1 = Except.ok true
    ∧ (NubDB.set ⟨[], [ReadStep.line "ERR\n"], none⟩ "k" "v" (some 60)).1
        = Except.ok false := by
  refine ⟨?_, ?_, by decide, by decide, by decide⟩ <;> cases ttl <;> rfl

/-- C7: `exists key` sends `EXISTS key` and returns `Ok true` if and only
if the trimmed reply equals `1`, and `Ok false` for every other reply,
including `0` and unexpected shapes. -/
theorem exists_true_iff_reply_one (key raw : String) (w : List String) (rest : List ReadStep) :
    (NubDB.exists ⟨w, ReadStep.line raw :: rest, none⟩ key).1
        = Except.ok (decide (rust_trim raw = "1"))
    ∧ (NubDB.exists ⟨w, ReadStep.line raw :: rest, none⟩ key).2
        = ⟨w ++ ["EXISTS " ++ key ++ "\n"], rest, none⟩
    ∧ (NubDB.exists ⟨[], [ReadStep.line "1\n"], none⟩ "k").1 = Except.ok true
    ∧ (NubDB.exists ⟨[], [ReadStep.line "0\n"], none⟩ "k").1 = Except.ok false
    ∧ (NubDB.exists ⟨[], [ReadStep.line "what\n"], none⟩ "k").1 = Except.ok false :=
  ⟨rfl, rfl, by decide, by decide, by decide⟩

/-- C8: `close` sends exactly the command line `QUIT`, reads and discards
one reply line (the returned value is `Ok ()` whatever the reply says), and
surfaces any write or read failure of the round trip as an error. -/
theorem close_sends_quit_and_discards_reply (raw : String) (w : List String)
    (rest input : List ReadStep) (e : IOErr) :
    (NubDB.close ⟨w, ReadStep.line raw :: rest, none⟩).1 = Except.ok ()
    ∧ (NubDB.close ⟨w, ReadStep.line raw :: rest, none⟩).2
        = ⟨w ++ ["QUIT\n"], rest, none⟩
    ∧ (NubDB.close ⟨w, ReadStep.fail e :: rest, none⟩).1 = Except.error e
    ∧ (NubDB.close ⟨w, input, some e⟩).1 = Except.error e :=
  ⟨rfl, rfl, rfl, rfl⟩

/-- C9: the `get` decoder strips every leading and every trailing
double-quote character of the trimmed reply, not just one surrounding
pair: a reply line trimming to `""x""` decodes to `x`, and a reply
consisting only of quote characters decodes to the empty string. -/
theorem get_strips_all_quote_chars (key raw : String) (w : List String) (rest : List ReadStep) :
    (NubDB.get ⟨w, ReadStep.line raw :: rest, none⟩ key).1
        = Except.ok (if rust_trim raw = "(nil)" then none
            else some (String.mk ((((rust_trim raw).data.dropWhile (fun x => x == '"')).reverse.dropWhile
              (fun x => x == '"')).reverse)))
    ∧ (NubDB.get ⟨[], [ReadStep.line "\"\"x\"\"\n"], none⟩ "k").1 = Except.ok (some "x")
    ∧ (NubDB.get ⟨[], [ReadStep.line "\"\"\"\"\n"], none⟩ "k").1 = Except.ok (some "")
    ∧ (NubDB.get ⟨[], [ReadStep.line "\"plain\"\n"], none⟩ "k").1
        = Except.ok (some "plain") := by
  refine ⟨?_, by decide, by decide, by decide⟩
  rw [get_line]
  rfl

/-- C3 counterexample: when the stream ends before any reply line is
received (end of stream right away), `send_command` does NOT fail: Rust's
`read_line` returns `Ok(0)` with an empty buffer, so the call returns
`Ok ""`. -/
theorem send_command_eof_returns_ok :
    (NubDB.send_command ⟨[], [], none⟩ "GET k").1 = Except.ok "" := by decide

/-- C3 amended: `send_command` propagates any write failure and any read
failure on the established connection as an error; but when the stream
ends before a full reply line is received, `read_line` succeeds with an
empty buffer and `send_command` returns `Ok` of the empty trimmed string
rather than a protocol error. -/
theorem send_command_error_propagation (cmd : String) (w : List String)
    (input rest : List ReadStep) (e : IOErr) :
    (NubDB.send_command ⟨w, input, some e⟩ cmd).1 = Except.error e
    ∧ (NubDB.send_command ⟨w, ReadStep.fail e :: rest, none⟩ cmd).1 = Except.error e
    ∧ (NubDB.send_command ⟨w, [], none⟩ cmd).1 = Except.ok "" :=
  ⟨rfl, rfl, rfl⟩

/-- C4: `incr key` (and `decr key`) sends its command line and returns
`Ok n` where `n` is the trimmed reply parsed as a signed 64-bit integer
when the reply is a valid integer literal, and fails if and only if it is
not: an out-of-range or non-numeric reply yields an error (kind
`InvalidData`), never a silently wrong integer. -/
theorem incr_decr_parse_reply (key raw : String) (w : List String) (rest : List ReadStep) :
    (NubDB.incr ⟨w, ReadStep.line raw :: rest, none⟩ key).1
        = (match parse_i64 (rust_trim raw) with
           | some n => Except.ok n
           | none => Except.error ⟨ErrorKind.invalidData⟩)
    ∧ (NubDB.incr ⟨w, ReadStep.line raw :: rest, none⟩ key).2
        = ⟨w ++ ["INCR " ++ key ++ "\n"], rest, none⟩
    ∧ (NubDB.decr ⟨w, ReadStep.line raw :: rest, none⟩ key).1
        = (match parse_i64 (rust_trim raw) with
           | some n => Except.ok n
           | none => Except.error ⟨ErrorKind.invalidData⟩)
    ∧ (NubDB.decr ⟨w, ReadStep.line raw :: rest, none⟩ key).2
        = ⟨w ++ ["DECR " ++ key ++ "\n"], rest, none⟩
    ∧ (NubDB.incr ⟨[], [ReadStep.line "42\n"], none⟩ "k").1 = Except.ok 42
    ∧ (NubDB.incr ⟨[], [ReadStep.line "-7\n"], none⟩ "k").1 = Except.ok (-7)
    ∧ (NubDB.incr ⟨[], [ReadStep.line "9223372036854775807\n"], none⟩ "k").1
        = Except.ok 9223372036854775807
    ∧ (NubDB.incr ⟨[], [ReadStep.line "abc\n"], none⟩ "k").1
        = Except.error ⟨ErrorKind.invalidData⟩
    ∧ (NubDB.incr ⟨[], [ReadStep.line "9223372036854775808\n"], none⟩ "k").1
        = Except.error ⟨ErrorKind.invalidData⟩
    ∧ (NubDB.decr ⟨[], [ReadStep.line "12x\n"], none⟩ "k").1
        = Except.error ⟨ErrorKind.invalidData⟩ := by
  refine ⟨?_, ?_, ?_, ?_, by decide, by decide, by decide, by decide, by decide, by decide⟩
  · rw [incr_line]
  · rw [incr_line]; rfl
  · rw [decr_line]
  · rw [decr_line]; rfl

/-- Helper: the tokenizer never returns the empty token list while a token
is being accumulated. -/
theorem splitWSAux_cons_acc_ne_nil (l : List Char) (a : Char) (acc : List Char) :
    splitWSAux l (a :: acc) ≠ [] := by
  induction l generalizing a acc with
  | nil => simp [splitWSAux]
  | cons c cs ih =>
    by_cases h : c.isWhitespace <;> simp [splitWSAux, h, ih]

/-- Helper: the tokenizer yields no token exactly when the list holds only
whitespace characters. -/
theorem splitWSAux_eq_nil_iff (l : List Char) :
    splitWSAux l [] = [] ↔ l.dropWhile Char.isWhitespace = [] := by
  induction l with
  | nil => simp [splitWSAux]
  | cons c cs ih =>
    by_cases h : c.isWhitespace <;>
      simp [splitWSAux, List.dropWhile_cons, h, ih, splitWSAux_cons_acc_ne_nil]

/-- Helper: after the client's trim, the reply splits into no whitespace
token exactly when the trimmed reply is the empty string. -/
theorem split_whitespace_rust_trim_eq_nil_iff (s : String) :
    split_whitespace (rust_trim s) = [] ↔ rust_trim s = "" := by
  constructor
  · intro h
    have hd : (rust_trim s).data
        = List.rdropWhile Char.isWhitespace (s.data.dropWhile Char.isWhitespace) := rfl
    have hnil : (rust_trim s).data.dropWhile Char.isWhitespace = [] :=
      (splitWSAux_eq_nil_iff _).mp h
    apply String.ext
    show (rust_trim s).data = ([] : List Char)
    by_contra hne
    obtain ⟨c, t, hct⟩ := List.exists_cons_of_ne_nil hne
    have hws : Char.isWhitespace c = true :=
      List.dropWhile_eq_nil_iff.mp hnil c (by rw [hct]; exact List.mem_cons_self _ _)
    have hpre : (rust_trim s).data <+: s.data.dropWhile Char.isWhitespace := by
      rw [hd]; exact List.rdropWhile_prefix _ _
    obtain ⟨u, hu⟩ := hpre
    have hm : s.data.dropWhile Char.isWhitespace = c :: (t ++ u) := by
      rw [← hu, hct]; simp
    have hid : List.dropWhile Char.isWhitespace (s.data.dropWhile Char.isWhitespace)
        = s.data.dropWhile Char.isWhitespace := List.dropWhile_idempotent _ _
    rw [hm, List.dropWhile_cons, hws, if_pos rfl] at hid
    have hlen := congrArg List.length hid
    have hle := (List.dropWhile_suffix (l := t ++ u) Char.isWhitespace).length_le
    simp only [List.length_cons] at hlen
    omega
  · intro h
    rw [h]
    decide

/-- C5: `size` sends `SIZE`; it returns the first whitespace-separated
token of the trimmed reply parsed as a non-negative integer, returns `0`
when the trimmed reply is empty (no tokens), and fails exactly when the
trimmed reply is non-empty and its first token is not a valid non-negative
integer; a reply of `3 keys` yields `3`. -/
theorem size_parses_first_token (raw : String) (w : List String) (rest : List ReadStep) :
    (NubDB.size ⟨w, ReadStep.line raw :: rest, none⟩).2
        = ⟨w ++ ["SIZE\n"], rest, none⟩
    ∧ (NubDB.size ⟨w, ReadStep.line raw :: rest, none⟩).1
        = (if rust_trim raw = "" then Except.ok 0
           else match parse_usize (((split_whitespace (rust_trim raw)).head?).getD "") with
                | some n => Except.ok n
                | none => Except.error ⟨ErrorKind.invalidData⟩)
    ∧ (NubDB.size ⟨[], [ReadStep.line "3 keys\n"], none⟩).1 = Except.ok 3
    ∧ (NubDB.size ⟨[], [ReadStep.line "0\n"], none⟩).1 = Except.ok 0
    ∧ (NubDB.size ⟨[], [ReadStep.line "\n"], none⟩).1 = Except.ok 0
    ∧ (NubDB.size ⟨[], [ReadStep.line "x keys\n"], none⟩).1
        = Except.error ⟨ErrorKind.invalidData⟩ := by
  refine ⟨?_, ?_, by decide, by decide, by decide, by decide⟩
  · rw [size_line]; rfl
  · rw [size_line]
    by_cases h : rust_trim raw = ""
    · rw [h]; rfl
    · have hne : split_whitespace (rust_trim raw) ≠ [] := fun hc =>
        h ((split_whitespace_rust_trim_eq_nil_iff raw).mp hc)
      obtain ⟨tok, toks, htt⟩ := List.exists_cons_of_ne_nil hne
      simp only [h, if_false, htt, List.head?_cons, Option.getD_some]

/-- C10: decode failures in `incr`, `decr` and `size` are surfaced through
the one public error type as an error whose kind is `InvalidData`: every
non-integer reply to `incr`/`decr` and every non-parsable first token to
`size` produces an error of that kind. -/
theorem decode_failures_have_invalid_data_kind (key raw : String) (w : List String)
    (rest : List ReadStep) :
    (parse_i64 (rust_trim raw) = none →
      (NubDB.incr ⟨w, ReadStep.line raw :: rest, none⟩ key).1
        = Except.error ⟨ErrorKind.invalidData⟩)
    ∧ (parse_i64 (rust_trim raw) = none →
      (NubDB.decr ⟨w, ReadStep.line raw :: rest, none⟩ key).1
        = Except.error ⟨ErrorKind.invalidData⟩)
    ∧ (∀ tok, (split_whitespace (rust_trim raw)).head? = some tok →
        parse_usize tok = none →
      (NubDB.size ⟨w, ReadStep.line raw :: rest, none⟩).1
        = Except.error ⟨ErrorKind.invalidData⟩) := by
  refine ⟨fun h => ?_, fun h => ?_, fun tok h1 h2 => ?_⟩
  · rw [incr_line]; simp [h]
  · rw [decr_line]; simp [h]
  · rw [size_line]; simp [h1, h2]

/-- C10 witness: concrete decode failures carrying kind `InvalidData`. -/
theorem decode_failures_have_invalid_data_kind_witness :
    (parse_i64 (rust_trim "abc\n") = none
      ∧ (NubDB.incr ⟨[], [ReadStep.line "abc\n"], none⟩ "k").1
          = Except.error ⟨ErrorKind.invalidData⟩)
    ∧ (NubDB.decr ⟨[], [ReadStep.line "abc\n"], none⟩ "k").1
        = Except.error ⟨ErrorKind.invalidData⟩
    ∧ ((split_whitespace (rust_trim "x keys\n")).head? = some "x"
      ∧ parse_usize "x" = none
      ∧ (NubDB.size ⟨[], [ReadStep.line "x keys\n"], none⟩).1
          = Except.error ⟨ErrorKind.invalidData⟩) :=
  ⟨⟨by decide,
    (decode_failures_have_invalid_data_kind "k" "abc\n" [] []).1 (by decide)⟩,
   (decode_failures_have_invalid_data_kind "k" "abc\n" [] []).2.1 (by decide),
   by decide, by decide,
   (decode_failures_have_invalid_data_kind "k" "x keys\n" [] []).2.2 "x"
     (by decide) (by decide)⟩

/-- C1: every public operation performs exactly one round trip.  With no
transport fault and at least as many reply lines as calls, a sequence of
`n` completed calls on one client appends exactly `n` command lines (each
the command followed by a single line terminator), consumes exactly the
first `n` reply lines in order leaving the rest unread, and call `i`'s
result is the one decoded from reply `i` alone. -/
theorem client_one_round_trip_per_call (ops : List Op) (w : List String)
    (lines : List String) (extra : List ReadStep) (h : ops.length ≤ lines.length) :
    (runOps ops ⟨w, lines.map ReadStep.line ++ extra, none⟩).2.written
        = w ++ ops.map (fun op => cmdOf op ++ "\n")
    ∧ (runOps ops ⟨w, lines.map ReadStep.line ++ extra, none⟩).2.input
        = (lines.drop ops.length).map ReadStep.line ++ extra
    ∧ (runOps ops ⟨w, lines.map ReadStep.line ++ extra, none⟩).2.wfail = none
    ∧ (runOps ops ⟨w, lines.map ReadStep.line ++ extra, none⟩).1
        = (ops.zip lines).map (fun p => decodeOn p.1 p.2) := by
  induction ops generalizing w lines with
  | nil => simp [runOps]
  | cons op ops ih =>
    cases lines with
    | nil => simp at h
    | cons l ls =>
      have hlen : ops.length ≤ ls.length := by simpa using h
      obtain ⟨h1, h2, h3, h4⟩ := ih (w ++ [cmdOf op ++ "\n"]) ls hlen
      simp only [List.map_cons, List.cons_append, runOps, runOp_one_line]
      refine ⟨?_, ?_, ?_, ?_⟩ <;> simp [h1, h2, h3, h4]

/-- C1 witness: the sequence set a, set b, get a against the replies
`OK`, `OK`, `"1"` writes three command lines, consumes the three replies
in order, and each call decodes its own reply. -/
theorem client_one_round_trip_per_call_witness :
    [Op.set "a" "1" none, Op.set "b" "2" none, Op.get "a"].length
        ≤ ["OK\n", "OK\n", "\"1\"\n"].length
    ∧ ((runOps [Op.set "a" "1" none, Op.set "b" "2" none, Op.get "a"]
          ⟨[], ["OK\n", "OK\n", "\"1\"\n"].map ReadStep.line ++ [], none⟩).2.written
        = [] ++ [Op.set "a" "1" none, Op.set "b" "2" none, Op.get "a"].map
            (fun op => cmdOf op ++ "\n")
    ∧ (runOps [Op.set "a" "1" none, Op.set "b" "2" none, Op.get "a"]
          ⟨[], ["OK\n", "OK\n", "\"1\"\n"].map ReadStep.line ++ [], none⟩).2.input
        = (["OK\n", "OK\n", "\"1\"\n"].drop
            [Op.set "a" "1" none, Op.set "b" "2" none, Op.get "a"].length).map
              ReadStep.line ++ []
    ∧ (runOps [Op.set "a" "1" none, Op.set "b" "2" none, Op.get "a"]
          ⟨[], ["OK\n", "OK\n", "\"1\"\n"].map ReadStep.line ++ [], none⟩).2.wfail = none
    ∧ (runOps [Op.set "a" "1" none, Op.set "b" "2" none, Op.get "a"]
          ⟨[], ["OK\n", "OK\n", "\"1\"\n"].map ReadStep.line ++ [], none⟩).1
        = ([Op.set "a" "1" none, Op.set "b" "2" none, Op.get "a"].zip
            ["OK\n", "OK\n", "\"1\"\n"]).map
            (fun p => decodeOn p.1 p.2)) :=
  ⟨by decide,
   client_one_round_trip_per_call
     [Op.set "a" "1" none, Op.set "b" "2" none, Op.get "a"]
     [] ["OK\n", "OK\n", "\"1\"\n"] [] (by decide)⟩
